import Mathlib

/-
Verification development for the trace-context propagation and sampling
subsystem of the apm-python repository, namely
src/opentelemetry_distro_solarwinds/sampler.py and
src/opentelemetry_distro_solarwinds/propagator.py.

The sampler and propagator manipulate TraceState values through the
opentelemetry-python API (opentelemetry.trace.span.TraceState and
SpanContext), so that API is embedded here as well, faithful to the
library code the repository calls into: the W3C key/value validity
check, the OrderedDict-backed constructor, add, update,
from_header and to_header.  Machine integers (trace id, span id,
trace flags) are Nat; a Python function that can raise is embedded
as an Option-valued function, with none marking the raised exception.
-/

set_option linter.unusedVariables false

/-- A TraceState is the insertion-ordered list of key-value entries held by
the OrderedDict inside opentelemetry.trace.span.TraceState. -/
abbrev TS := List (String × String)

/-- Attribute mappings are embedded as insertion-ordered association lists,
matching Python dict iteration order.  Attribute values relevant to the
claims are strings. -/
abbrev AttrDict := List (String × String)

/-- Body characters of a tracestate key, the class [_0-9a-z\-\*\/] of the
_KEY_FORMAT regex in opentelemetry.trace.span. -/
def isKeyBodyChar (c : Char) : Bool :=
  (decide (97 ≤ c.toNat) && decide (c.toNat ≤ 122)) ||
  (decide (48 ≤ c.toNat) && decide (c.toNat ≤ 57)) ||
  decide (c.toNat = 95) || decide (c.toNat = 45) ||
  decide (c.toNat = 42) || decide (c.toNat = 47)

/-- First character of a simple key: [a-z]. -/
def isLowerAlpha (c : Char) : Bool :=
  decide (97 ≤ c.toNat) && decide (c.toNat ≤ 122)

/-- First character of the tenant part of a multi-tenant key: [a-z0-9]. -/
def isLowerAlphaNum (c : Char) : Bool :=
  isLowerAlpha c || (decide (48 ≤ c.toNat) && decide (c.toNat ≤ 57))

/-- Split a character list at every occurrence of a separator character,
Python str.split semantics: n separators yield n+1 (possibly empty)
pieces. -/
def splitOnCharGo (sep : Char) : List Char → List Char → List (List Char)
  | [], cur => [cur.reverse]
  | c :: rest, cur =>
    if c == sep then cur.reverse :: splitOnCharGo sep rest []
    else splitOnCharGo sep rest (c :: cur)

/-- Split a character list on a separator character. -/
def splitOnChar (sep : Char) (cs : List Char) : List (List Char) :=
  splitOnCharGo sep cs []

/-- Full match of the _KEY_FORMAT regex of opentelemetry.trace.span:
either a simple key [a-z][body]x0-255 or a multi-tenant key
[a-z0-9][body]x0-240 at-sign [a-z][body]x0-13.  Body characters exclude
the at-sign, so splitting on it is faithful to the regex alternation. -/
def isValidKeyChars (cs : List Char) : Bool :=
  match splitOnChar '@' cs with
  | [s] =>
    match s with
    | [] => false
    | c :: rest => isLowerAlpha c && decide (rest.length ≤ 255) && rest.all isKeyBodyChar
  | [t, v] =>
    (match t with
     | [] => false
     | c :: rest => isLowerAlphaNum c && decide (rest.length ≤ 240) && rest.all isKeyBodyChar)
    &&
    (match v with
     | [] => false
     | c :: rest => isLowerAlpha c && decide (rest.length ≤ 13) && rest.all isKeyBodyChar)
  | _ => false

/-- Key validity on strings. -/
def isValidKey (k : String) : Bool := isValidKeyChars k.toList

/-- Characters allowed in a tracestate value by _VALUE_FORMAT: printable
ASCII 0x20-0x7e except comma (0x2c) and equals (0x3d). -/
def isValueChar (c : Char) : Bool :=
  decide (32 ≤ c.toNat) && decide (c.toNat ≤ 126) &&
  decide (c.toNat ≠ 44) && decide (c.toNat ≠ 61)

/-- Full match of the _VALUE_FORMAT regex: 0-255 value characters followed
by one value character that is not a space, so length 1-256, all value
characters, last character not a space. -/
def isValidValueChars (cs : List Char) : Bool :=
  decide (1 ≤ cs.length) && decide (cs.length ≤ 256) && cs.all isValueChar &&
  (match cs.getLast? with
   | some c => decide (c.toNat ≠ 32)
   | none => false)

/-- Value validity on strings. -/
def isValidValue (v : String) : Bool := isValidValueChars v.toList

/-- The _is_valid_pair check of opentelemetry.trace.span. -/
def isValidPair (k v : String) : Bool := isValidKey k && isValidValue v

/-- Membership of a key in the OrderedDict backing a TraceState. -/
def containsKey (ts : TS) (k : String) : Bool := ts.any (fun p => p.1 == k)

/-- TraceState.get as dict lookup, none standing for the Python default None. -/
def tsGet (ts : TS) (k : String) : Option String :=
  (ts.find? (fun p => p.1 == k)).map (fun p => p.2)

/-- Loop of the TraceState constructor: each entry is appended when its pair
is valid and its key is not yet present, and skipped (with a warning in the
source) otherwise. -/
def mkTraceStateGo (acc : TS) : TS → TS
  | [] => acc
  | p :: rest =>
    if isValidPair p.1 p.2 && !containsKey acc p.1 then mkTraceStateGo (acc ++ [p]) rest
    else mkTraceStateGo acc rest

/-- The TraceState constructor of opentelemetry.trace.span applied to a list
of entries. -/
def mkTraceState (entries : TS) : TS := mkTraceStateGo [] entries

/-- OrderedDict assignment: replace the value in place when the key is
present, append a new entry otherwise. -/
def odSet (d : TS) (k v : String) : TS :=
  if containsKey d k then d.map (fun p => if p.1 == k then (k, v) else p)
  else d ++ [(k, v)]

/-- OrderedDict move_to_end with last=False: move the entry of the key to
the front; keys absent from the dict leave it untouched (the source only
calls this right after setting the key). -/
def odMoveToFront (d : TS) (k : String) : TS :=
  match d.find? (fun p => p.1 == k) with
  | none => d
  | some p => p :: d.filter (fun q => q.1 != k)

/-- TraceState.update of opentelemetry.trace.span: on a valid pair, copy the
dict, assign the key, move it to the front and rebuild through the
constructor; on an invalid pair return the receiver unchanged. -/
def tsUpdate (ts : TS) (k v : String) : TS :=
  if isValidPair k v then mkTraceState (odMoveToFront (odSet ts k v) k) else ts

/-- TraceState.add of opentelemetry.trace.span: on a valid pair whose key is
absent, prepend the entry and rebuild through the constructor; otherwise
return the receiver unchanged. -/
def tsAdd (ts : TS) (k v : String) : TS :=
  if !isValidPair k v then ts
  else if containsKey ts k then ts
  else mkTraceState ((k, v) :: ts)

/-- TraceState.to_header: join the entries as key=value separated by commas. -/
def to_header (ts : TS) : String :=
  String.intercalate "," (ts.map (fun p => p.1 ++ "=" ++ p.2))

/-- Space or horizontal tab, the whitespace class of the header regexes. -/
def isWsChar (c : Char) : Bool := c == ' ' || c == '\t'

/-- Remove trailing spaces and tabs. -/
def stripTrailingWsChars (cs : List Char) : List Char :=
  (cs.reverse.dropWhile isWsChar).reverse

/-- Remove leading spaces and tabs. -/
def stripLeadingWsChars (cs : List Char) : List Char :=
  cs.dropWhile isWsChar

/-- re.split on the delimiter regex ws-comma-ws: split at commas, with the
whitespace adjacent to each comma consumed by the delimiter. -/
def delimiterSplit (header : String) : List String :=
  let pieces := splitOnChar ',' header.toList
  let n := pieces.length
  (List.range n).map (fun i =>
    let p := pieces.getD i []
    let p := if 0 < i then stripLeadingWsChars p else p
    let p := if i + 1 < n then stripTrailingWsChars p else p
    String.mk p)

/-- Full match of the _member_pattern regex key-equals-value-ws: after
stripping trailing whitespace the member must split at a single equals sign
into a valid key and a valid value (neither of which can contain an equals
sign or end in whitespace). -/
def memberMatch (m : String) : Option (String × String) :=
  let core := stripTrailingWsChars m.toList
  match splitOnChar '=' core with
  | [k, v] =>
    if isValidKeyChars k && isValidValueChars v then some (String.mk k, String.mk v)
    else none
  | _ => none

/-- Loop body of TraceState.from_header: empty members are skipped, a
non-matching member or a duplicate key aborts the whole parse (the source
returns an empty TraceState), and a matching member is assigned into the
OrderedDict of pairs. -/
def fromHeaderGo (pairs : TS) : List String → Option TS
  | [] => some pairs
  | m :: rest =>
    if m.toList.isEmpty then fromHeaderGo pairs rest
    else
      match memberMatch m with
      | none => none
      | some kv =>
        if containsKey pairs kv.1 then none
        else fromHeaderGo (odSet pairs kv.1 kv.2) rest

/-- TraceState.from_header of opentelemetry.trace.span: iterate the given
headers, split each on the delimiter, process every member, and build the
result through the TraceState constructor; any malformed member or
duplicate key yields the empty TraceState. -/
def from_header (headerList : List String) : TS :=
  match fromHeaderGo [] ((headerList.map delimiterSplit).flatten) with
  | none => []
  | some pairs => mkTraceState pairs

/-- Iterating a Python str where a list of strings is expected yields its
characters as length-one strings.  sampler.calculate_attributes passes the
attribute string itself (not a list) to TraceState.from_header, so this is
what from_header actually receives there. -/
def strAsHeaderList (s : String) : List String :=
  s.toList.map (fun c => String.mk [c])

/-- Minimal lowercase hexadecimal digit list of n, most significant first,
via fuel-guarded division by 16; fuel n+1 always suffices. -/
def hexAux : Nat → Nat → List Char
  | 0, _ => []
  | fuel + 1, n =>
    if n == 0 then []
    else hexAux fuel (n / 16) ++ [Nat.digitChar (n % 16)]

/-- Character list of the Python expression format(n, "0wx"): the minimal
lowercase hex digits of n, zero-padded on the left to width w. -/
def pyHexList (w n : Nat) : List Char :=
  let ds := hexAux (n + 1) n
  let ds := if ds.isEmpty then ['0'] else ds
  List.replicate (w - ds.length) '0' ++ ds

/-- The Python expression format(n, "0wx") as a string. -/
def pyFormatHex (w n : Nat) : String := String.mk (pyHexList w n)

/-- opentelemetry.trace.span.SpanContext restricted to the fields this
subsystem reads.  trace_state is the entry list of the TraceState (empty
when the context carries none, which is also Python-falsy). -/
structure SpanContext where
  traceId : Nat
  spanId : Nat
  isRemote : Bool
  traceFlags : Nat
  traceState : TS
deriving DecidableEq

/-- SpanContext.is_valid: nonzero trace id and nonzero span id. -/
def SpanContext.is_valid (c : SpanContext) : Bool :=
  c.traceId != 0 && c.spanId != 0

/-- The sampled bit of the trace flags, bit 0. -/
def sampledFlag (c : SpanContext) : Bool := c.traceFlags % 2 == 1

/-- Modelled from the spec: formatSpanId of section 4.1 — span id as 16
zero-padded lowercase hex characters.  The function span_id_from_int lives
in w3c_transformer.py, which is not under src. -/
def span_id_from_int (spanId : Nat) : String := pyFormatHex 16 spanId

/-- Modelled from the spec: formatFlags of section 4.1 — flags as 2
zero-padded lowercase hex characters.  The function trace_flags_from_int
lives in w3c_transformer.py, which is not under src. -/
def trace_flags_from_int (flags : Nat) : String := pyFormatHex 2 flags

/-- Modelled from the spec: the sw member value, formatSpanId of the span id
followed by a dash and the already-formatted flags (section 4.2 step 4).
The function sw_from_span_and_decision lives in w3c_transformer.py, which
is not under src. -/
def sw_from_span_and_decision (spanId : Nat) (decision : String) : String :=
  span_id_from_int spanId ++ "-" ++ decision

/-- Modelled from the spec: formatTraceparent of section 4.1 — version 00,
32-hex trace id, 16-hex span id, 2-hex flags.  The function
traceparent_from_context lives in w3c_transformer.py, which is not under
src; its output is consumed only by the opaque decision oracle. -/
def traceparent_from_context (c : SpanContext) : String :=
  "00-" ++ pyFormatHex 32 c.traceId ++ "-" ++ pyFormatHex 16 c.spanId ++ "-" ++
    pyFormatHex 2 c.traceFlags

/-- Modelled from the spec: the existing sw entry value of the parent
TraceState, if any (section 4.2 step 1).  The function sw_from_context
lives in w3c_transformer.py, which is not under src; its output is consumed
only by the opaque decision oracle. -/
def sw_from_context (c : SpanContext) : String :=
  (tsGet c.traceState "sw").getD ""

/-- The two fields of the liboboe 11-tuple that _LiboboeDecision retains;
liboboe returns them as ints, and the sampler branches on their Python
truthiness. -/
structure LiboboeDecision where
  do_metrics : Nat
  do_sample : Nat
deriving DecidableEq

/-- The first two components of the 11-tuple returned by
Context.getDecisions; the other nine components are bound to underscores by
calculate_liboboe_decision and never read, so they are not modelled.  A
call that raises, or returns a tuple of the wrong arity (which raises at
unpacking), is modelled by the oracle returning none. -/
structure OracleRecord where
  do_metrics : Nat
  do_sample : Nat
deriving DecidableEq

/-- The external decision oracle Context.getDecisions, a function of the
two header strings the sampler passes it. -/
abbrev Oracle := String → String → Option OracleRecord

/-- The OTel sampling Decision enum. -/
inductive Decision where
  | DROP
  | RECORD_ONLY
  | RECORD_AND_SAMPLE
deriving DecidableEq

/-- opentelemetry.sdk.trace.sampling.SamplingResult: decision, optional
immutable attribute mapping (none when the sampler passes None, which the
SDK wraps as an empty mapping proxy), and optional trace state. -/
structure SamplingResult where
  decision : Decision
  attributes : Option AttrDict
  trace_state : Option TS
deriving DecidableEq

/-- _SwSampler.calculate_liboboe_decision: format the two inputs from the
parent span context and call Context.getDecisions, keeping only do_metrics
and do_sample; none marks an oracle call that raised. -/
def calculate_liboboe_decision (oracle : Oracle) (psc : SpanContext) :
    Option LiboboeDecision :=
  let in_xtrace := traceparent_from_context psc
  let tracestate := sw_from_context psc
  (oracle in_xtrace tracestate).map (fun r => ⟨r.do_metrics, r.do_sample⟩)

/-- _SwSampler.otel_decision_from_liboboe: start from DROP, overwrite with
RECORD_ONLY when do_metrics is truthy, then overwrite with
RECORD_AND_SAMPLE when do_sample is truthy. -/
def otel_decision_from_liboboe (d : LiboboeDecision) : Decision :=
  let decision := Decision.DROP
  let decision := if d.do_metrics != 0 then Decision.RECORD_ONLY else decision
  let decision := if d.do_sample != 0 then Decision.RECORD_AND_SAMPLE else decision
  decision

/-- _SwSampler.create_new_trace_state: a TraceState built from the single
sw entry for the parent span id and the formatted do_sample flag. -/
def create_new_trace_state (d : LiboboeDecision) (psc : SpanContext) : TS :=
  mkTraceState
    [("sw", sw_from_span_and_decision psc.spanId (trace_flags_from_int d.do_sample))]

/-- Python truthiness of an optional string: None and the empty string are
falsy. -/
def pyFalsyOptStr : Option String → Bool
  | none => true
  | some s => s.toList.isEmpty

/-- Python truthiness of the optional attribute mapping: None and the empty
mapping are falsy. -/
def pyFalsyAttrs : Option AttrDict → Bool
  | none => true
  | some a => a.isEmpty

/-- _SwSampler.calculate_trace_state: fresh single-entry TraceState when
the parent is invalid, or when its TraceState is falsy or has no (or an
empty) sw value; otherwise TraceState.update of the sw entry. -/
def calculate_trace_state (d : LiboboeDecision) (psc : SpanContext) : TS :=
  if !psc.is_valid then create_new_trace_state d psc
  else
    let trace_state := psc.traceState
    if trace_state.isEmpty || pyFalsyOptStr (tsGet trace_state "sw") then
      create_new_trace_state d psc
    else
      tsUpdate trace_state "sw"
        (sw_from_span_and_decision psc.spanId (trace_flags_from_int d.do_sample))

/-- _SwSampler.calculate_attributes.  The branch that merges an existing
sw.w3c.tracestate attribute calls TraceState.from_header on the attribute
string itself (iterated character by character where a list of headers is
expected) and discards the return value of TraceState.update, exactly as
the source does. -/
def calculate_attributes (attributes : Option AttrDict) (d : LiboboeDecision)
    (trace_state : TS) (psc : SpanContext) : Option AttrDict :=
  if otel_decision_from_liboboe d == Decision.DROP then none
  else if !psc.is_valid || trace_state.isEmpty then none
  else if pyFalsyAttrs attributes then
    some [("sw.tracestate_parent_id", span_id_from_int psc.spanId),
          ("sw.w3c.tracestate", to_header trace_state)]
  else
    let new_attributes := attributes.getD []
    if pyFalsyOptStr (tsGet new_attributes "sw.w3c.tracestate") then
      let new_attributes := odSet new_attributes "sw.w3c.tracestate" (to_header trace_state)
      let new_attributes :=
        odSet new_attributes "sw.tracestate_parent_id" (span_id_from_int psc.spanId)
      some new_attributes
    else
      let attr_trace_state :=
        from_header (strAsHeaderList ((tsGet new_attributes "sw.w3c.tracestate").getD ""))
      let _discarded :=
        tsUpdate attr_trace_state "sw"
          (sw_from_span_and_decision psc.spanId (trace_flags_from_int d.do_sample))
      let new_attributes :=
        odSet new_attributes "sw.w3c.tracestate" (to_header attr_trace_state)
      let new_attributes :=
        odSet new_attributes "sw.tracestate_parent_id" (span_id_from_int psc.spanId)
      some new_attributes

/-- _SwSampler.should_sample as a function of the parent span context and
the caller-supplied attributes; none marks the oracle exception propagating
out of the call. -/
def sw_should_sample (oracle : Oracle) (psc : SpanContext)
    (attributes : Option AttrDict) : Option SamplingResult :=
  match calculate_liboboe_decision oracle psc with
  | none => none
  | some d =>
    let trace_state := calculate_trace_state d psc
    let attributes := calculate_attributes attributes d trace_state psc
    let decision := otel_decision_from_liboboe d
    some ⟨decision, if decision != Decision.DROP then attributes else none,
          some trace_state⟩

/-- SolarWindsFormat.format_span_id: span id as a 16-character lowercase
hex string. -/
def format_span_id (spanId : Nat) : String := pyFormatHex 16 spanId

/-- SolarWindsFormat.format_trace_flags: flags as a 2-character lowercase
hex string. -/
def format_trace_flags (flags : Nat) : String := pyFormatHex 2 flags

/-- The trace_state value SolarWindsFormat.inject holds at the final
setter.set call.  On the branch with no sw key the source calls
TraceState.add without using its return value (TraceState is immutable), so
trace_state is left as it was; on the sw branch it rebuilds through an
OrderedDict copy, assignment and move_to_end. -/
def inject_trace_state (sc : SpanContext) : TS :=
  let span_id := format_span_id sc.spanId
  let trace_flags := format_trace_flags sc.traceFlags
  let trace_state := sc.traceState
  if !trace_state.isEmpty then
    if containsKey trace_state "sw" then
      let prev_state := odSet trace_state "sw" (span_id ++ "-" ++ trace_flags)
      let prev_state := odMoveToFront prev_state "sw"
      mkTraceState prev_state
    else
      let _discarded := tsAdd trace_state "sw" (span_id ++ "-" ++ trace_flags)
      trace_state
  else
    mkTraceState [("sw", span_id ++ "-" ++ trace_flags)]

/-- SolarWindsFormat.inject, observed as the tracestate header value
written into the carrier. -/
def inject (sc : SpanContext) : String := to_header (inject_trace_state sc)

/-- SolarWindsFormat.extract: returns the given context unchanged,
performing no parsing of the carrier. -/
def extract {γ : Type} (carrier : AttrDict) (context : Option γ)
    (getter : AttrDict → String → List String) : Option γ :=
  context

/-- A sampler, as the dispatcher sees it: a function of the parent span
context and the caller attributes. -/
abbrev SamplerFn := SpanContext → Option AttrDict → Option SamplingResult

/-- opentelemetry.sdk.trace.sampling._get_parent_trace_state: the parent
trace state when the parent context is valid, None otherwise. -/
def get_parent_trace_state (psc : SpanContext) : Option TS :=
  if !psc.is_valid then none else some psc.traceState

/-- opentelemetry.sdk.trace.sampling.StaticSampler.should_sample: fixed
decision, attributes dropped on DROP, parent trace state passed through. -/
def static_should_sample (decision : Decision) (psc : SpanContext)
    (attributes : Option AttrDict) : SamplingResult :=
  let attributes := if decision == Decision.DROP then none else attributes
  ⟨decision, attributes, get_parent_trace_state psc⟩

/-- The SDK constant ALWAYS_ON, StaticSampler(RECORD_AND_SAMPLE). -/
def ALWAYS_ON : SamplerFn :=
  fun psc attrs => some (static_should_sample Decision.RECORD_AND_SAMPLE psc attrs)

/-- The SDK constant ALWAYS_OFF, StaticSampler(DROP). -/
def ALWAYS_OFF : SamplerFn :=
  fun psc attrs => some (static_should_sample Decision.DROP psc attrs)

/-- opentelemetry.sdk.trace.sampling.ParentBased.should_sample: select the
delegate by parent validity, remoteness and sampled flag, then run it. -/
def parent_based_should_sample (root remote_parent_sampled remote_parent_not_sampled
    local_parent_sampled local_parent_not_sampled : SamplerFn)
    (psc : SpanContext) (attributes : Option AttrDict) : Option SamplingResult :=
  let sampler :=
    if psc.is_valid then
      if psc.isRemote then
        if sampledFlag psc then remote_parent_sampled else remote_parent_not_sampled
      else
        if sampledFlag psc then local_parent_sampled else local_parent_not_sampled
    else root
  sampler psc attributes

/-- ParentBasedSwSampler.should_sample: ParentBased wired with _SwSampler
for the root and both remote-parent slots, and the SDK defaults ALWAYS_ON
and ALWAYS_OFF for the two local-parent slots. -/
def parent_based_sw_should_sample (oracle : Oracle) : SamplerFn :=
  parent_based_should_sample (sw_should_sample oracle) (sw_should_sample oracle)
    (sw_should_sample oracle) ALWAYS_ON ALWAYS_OFF

/-- Lowercase hexadecimal digit: 0-9 or a-f. -/
def isHexLowerChar (c : Char) : Bool :=
  (decide (48 ≤ c.toNat) && decide (c.toNat ≤ 57)) ||
  (decide (97 ≤ c.toNat) && decide (c.toNat ≤ 102))

/-- The entries of a trace state whose key differs from the given key, in
their original order. -/
def othersOf (ts : TS) (k : String) : TS := ts.filter (fun p => p.1 != k)

/-- Pairwise-distinct keys. -/
def keysUnique : TS → Bool
  | [] => true
  | p :: rest => !containsKey rest p.1 && keysUnique rest

/-- Well-formed trace state: every pair valid and keys pairwise distinct,
the invariant the TraceState constructor establishes. -/
def wfTS (ts : TS) : Bool :=
  ts.all (fun p => isValidPair p.1 p.2) && keysUnique ts

/-- The mutation invariant of claim C2: when an sw entry exists in the
mutated state it is the first entry, and the non-sw entries equal the
non-sw entries before the mutation, in the same order. -/
def swFirstPreserving (before after : TS) : Bool :=
  (!containsKey after "sw" ||
    (match after.head? with
     | some p => p.1 == "sw"
     | none => false)) &&
  (othersOf after "sw" == othersOf before "sw")

/-- The root-span property of claim C8: the trace state is exactly one sw
entry whose value is 16 lowercase hex characters, a dash, and the 2
lowercase hex characters of the freshly computed do_sample flag. -/
def rootSwShape (d : LiboboeDecision) (psc : SpanContext) : Prop :=
  ∃ a b : String,
    calculate_trace_state d psc = [("sw", a ++ "-" ++ b)] ∧
    a.length = 16 ∧ (∀ c ∈ a.toList, isHexLowerChar c = true) ∧
    b.length = 2 ∧ (∀ c ∈ b.toList, isHexLowerChar c = true) ∧
    b = trace_flags_from_int d.do_sample

/-- The engine-result property of claim C10: the sampling call succeeds,
its trace state carries an sw entry, and a DROP decision carries no
attributes. -/
def engineResultShape (oracle : Oracle) (psc : SpanContext)
    (attrs : Option AttrDict) : Prop :=
  ∃ r : SamplingResult,
    sw_should_sample oracle psc attrs = some r ∧
    (∃ ts : TS, r.trace_state = some ts ∧ containsKey ts "sw" = true) ∧
    (r.decision = Decision.DROP → r.attributes = none)

theorem containsKey_cons (p : String × String) (rest : TS) (k : String) :
    containsKey (p :: rest) k = ((p.1 == k) || containsKey rest k) := by
  simp [containsKey]

theorem containsKey_append (a b : TS) (k : String) :
    containsKey (a ++ b) k = (containsKey a k || containsKey b k) := by
  simp [containsKey]

theorem find?_replace (ts : TS) (k v : String) (hc : containsKey ts k = true) :
    (ts.map (fun p => if p.1 == k then (k, v) else p)).find? (fun p => p.1 == k)
      = some (k, v) := by
  induction ts with
  | nil => simp [containsKey] at hc
  | cons p rest ih =>
    rw [containsKey_cons] at hc
    rw [List.map_cons]
    cases hpk : (p.1 == k) with
    | true =>
      rw [show (if true = true then ((k, v) : String × String) else p) = (k, v) from rfl]
      rw [List.find?_cons]
      simp
    | false =>
      rw [show (if false = true then ((k, v) : String × String) else p) = p from rfl]
      rw [List.find?_cons, hpk]
      rw [hpk] at hc
      exact ih (by simpa using hc)

theorem find?_append_single (ts : TS) (k v : String) (hc : containsKey ts k = false) :
    ((ts ++ [(k, v)]).find? (fun p => p.1 == k)) = some (k, v) := by
  induction ts with
  | nil => simp [List.find?_cons]
  | cons p rest ih =>
    rw [containsKey_cons] at hc
    have hpk : (p.1 == k) = false := by
      cases h : (p.1 == k) <;> simp [h] at hc ⊢
    have hrest : containsKey rest k = false := by
      cases h : containsKey rest k
      · rfl
      · rw [h, hpk] at hc; simp_all
    simp [List.find?_cons, hpk, ih hrest]

theorem find?_odSet (ts : TS) (k v : String) :
    (odSet ts k v).find? (fun p => p.1 == k) = some (k, v) := by
  unfold odSet
  by_cases hc : containsKey ts k = true
  · rw [if_pos hc]; exact find?_replace ts k v hc
  · rw [if_neg hc]
    exact find?_append_single ts k v (by cases h : containsKey ts k <;> simp_all)

theorem othersOf_cons (p : String × String) (rest : TS) (k : String) :
    othersOf (p :: rest) k
      = if (p.1 != k) = true then p :: othersOf rest k else othersOf rest k := by
  simp [othersOf, List.filter_cons]

theorem othersOf_append (a b : TS) (k : String) :
    othersOf (a ++ b) k = othersOf a k ++ othersOf b k := by
  simp [othersOf, List.filter_append]

theorem othersOf_map_replace (ts : TS) (k v : String) :
    othersOf (ts.map (fun p => if p.1 == k then (k, v) else p)) k = othersOf ts k := by
  induction ts with
  | nil => rfl
  | cons p rest ih =>
    rw [List.map_cons]
    cases hpk : (p.1 == k) with
    | true =>
      rw [show (if true = true then ((k, v) : String × String) else p) = (k, v) from rfl]
      rw [othersOf_cons, othersOf_cons]
      have h1 : (((k, v) : String × String).1 != k) = false := by simp
      have h2 : (p.1 != k) = false := by simp [bne, hpk]
      rw [h1, h2]
      exact ih
    | false =>
      rw [show (if false = true then ((k, v) : String × String) else p) = p from rfl]
      rw [othersOf_cons, othersOf_cons]
      have h2 : (p.1 != k) = true := by simp [bne, hpk]
      rw [h2]
      show p :: othersOf (List.map (fun p => if p.1 == k then (k, v) else p) rest) k
        = p :: othersOf rest k
      rw [ih]

theorem othersOf_odSet (ts : TS) (k v : String) :
    othersOf (odSet ts k v) k = othersOf ts k := by
  unfold odSet
  by_cases hc : containsKey ts k = true
  · rw [if_pos hc]; exact othersOf_map_replace ts k v
  · rw [if_neg hc, othersOf_append]
    simp [othersOf, List.filter_cons, bne]

theorem odMoveToFront_odSet (ts : TS) (k v : String) :
    odMoveToFront (odSet ts k v) k = (k, v) :: othersOf ts k := by
  unfold odMoveToFront
  rw [find?_odSet]
  show (k, v) :: (odSet ts k v).filter (fun q => q.1 != k) = _
  rw [show (odSet ts k v).filter (fun q => q.1 != k) = othersOf (odSet ts k v) k from rfl,
    othersOf_odSet]

theorem mkTraceStateGo_eq_append : ∀ (l acc : TS),
    l.all (fun p => isValidPair p.1 p.2) = true → keysUnique l = true →
    (∀ p ∈ l, containsKey acc p.1 = false) → mkTraceStateGo acc l = acc ++ l := by
  intro l
  induction l with
  | nil => intro acc _ _ _; simp [mkTraceStateGo]
  | cons p rest ih =>
    intro acc hall huniq hdisj
    rw [List.all_cons] at hall
    have hv : isValidPair p.1 p.2 = true := by
      cases h : isValidPair p.1 p.2
      · rw [h] at hall; simp at hall
      · rfl
    have hrest : rest.all (fun p => isValidPair p.1 p.2) = true := by
      rw [hv] at hall; simpa using hall
    have hacc : containsKey acc p.1 = false := hdisj p (List.mem_cons_self p rest)
    have hu1 : containsKey rest p.1 = false := by
      unfold keysUnique at huniq
      cases h : containsKey rest p.1
      · rfl
      · rw [h] at huniq; simp at huniq
    have hu2 : keysUnique rest = true := by
      unfold keysUnique at huniq
      cases h : keysUnique rest
      · rw [h] at huniq; simp at huniq
      · rfl
    unfold mkTraceStateGo
    rw [hv, hacc]
    show mkTraceStateGo (acc ++ [p]) rest = acc ++ p :: rest
    rw [ih (acc ++ [p]) hrest hu2 ?_]
    · simp
    · intro q hq
      rw [containsKey_append, hdisj q (List.mem_cons_of_mem p hq)]
      have hqp : (q.1 == p.1) = false := by
        have : ¬ (q.1 == p.1) = true := by
          intro hcontra
          have : containsKey rest p.1 = true := by
            rw [containsKey]
            exact List.any_eq_true.2 ⟨q, hq, hcontra⟩
          rw [this] at hu1; simp at hu1
        cases h : (q.1 == p.1)
        · rfl
        · exact absurd h this
      simp only [containsKey, List.any_cons, List.any_nil, Bool.or_false, Bool.false_or]
      cases h : (p.1 == q.1)
      · rfl
      · exact absurd ((beq_iff_eq ..).1 h).symm (beq_eq_false_iff_ne.1 hqp)

theorem mkTraceState_of_wf (ts : TS) (h : wfTS ts = true) : mkTraceState ts = ts := by
  unfold wfTS at h
  have h1 : ts.all (fun p => isValidPair p.1 p.2) = true := by
    cases hh : ts.all (fun p => isValidPair p.1 p.2)
    · rw [hh] at h; simp at h
    · rfl
  have h2 : keysUnique ts = true := by
    cases hh : keysUnique ts
    · rw [hh, h1] at h; simp at h
    · rfl
  have := mkTraceStateGo_eq_append ts [] h1 h2 (by intro p _; rfl)
  simpa [mkTraceState] using this

theorem tsUpdate_shape (ts : TS) (k v : String) (hv : isValidPair k v = true) :
    tsUpdate ts k v = mkTraceState ((k, v) :: othersOf ts k) := by
  unfold tsUpdate
  rw [if_pos hv, odMoveToFront_odSet]

theorem containsKey_filter_false (ts : TS) (f : String × String → Bool) (k : String)
    (h : containsKey ts k = false) : containsKey (ts.filter f) k = false := by
  induction ts with
  | nil => rfl
  | cons p rest ih =>
    rw [containsKey_cons] at h
    have hp : (p.1 == k) = false := by
      cases hh : (p.1 == k)
      · rfl
      · rw [hh] at h; simp at h
    have hrest : containsKey rest k = false := by
      rw [hp] at h; simpa using h
    rw [List.filter_cons]
    cases hf : f p
    · simpa using ih hrest
    · show containsKey (p :: List.filter f rest) k = false
      rw [containsKey_cons, hp, ih hrest]
      rfl

theorem containsKey_othersOf_self (ts : TS) (k : String) :
    containsKey (othersOf ts k) k = false := by
  induction ts with
  | nil => rfl
  | cons p rest ih =>
    rw [othersOf_cons]
    cases hpk : (p.1 != k)
    · simpa [hpk] using ih
    · rw [if_pos rfl, containsKey_cons]
      have : (p.1 == k) = false := by
        cases h : (p.1 == k)
        · rfl
        · rw [bne, h] at hpk; simp at hpk
      rw [this, ih]
      rfl

theorem keysUnique_filter (ts : TS) (f : String × String → Bool)
    (h : keysUnique ts = true) : keysUnique (ts.filter f) = true := by
  induction ts with
  | nil => rfl
  | cons p rest ih =>
    unfold keysUnique at h
    have h1 : containsKey rest p.1 = false := by
      cases hh : containsKey rest p.1
      · rfl
      · rw [hh] at h; simp at h
    have h2 : keysUnique rest = true := by
      cases hh : keysUnique rest
      · rw [hh] at h; simp at h
      · rfl
    rw [List.filter_cons]
    cases hf : f p
    · simpa using ih h2
    · show keysUnique (p :: List.filter f rest) = true
      unfold keysUnique
      rw [containsKey_filter_false rest f p.1 h1, ih h2]
      rfl

theorem all_filter_of_all (ts : TS) (P f : String × String → Bool)
    (h : ts.all P = true) : (ts.filter f).all P = true := by
  rw [List.all_eq_true] at *
  intro p hp
  exact h p (List.mem_of_mem_filter hp)

theorem wf_update_list (ts : TS) (k v : String) (hw : wfTS ts = true)
    (hv : isValidPair k v = true) : wfTS ((k, v) :: othersOf ts k) = true := by
  unfold wfTS at hw ⊢
  have h1 : ts.all (fun p => isValidPair p.1 p.2) = true := by
    cases hh : ts.all (fun p => isValidPair p.1 p.2)
    · rw [hh] at hw; simp at hw
    · rfl
  have h2 : keysUnique ts = true := by
    cases hh : keysUnique ts
    · rw [hh, h1] at hw; simp at hw
    · rfl
  rw [List.all_cons, hv]
  rw [show othersOf ts k = ts.filter (fun p => p.1 != k) from rfl]
  rw [all_filter_of_all ts _ _ h1]
  unfold keysUnique
  rw [show containsKey (List.filter (fun p => p.1 != k) ts) ((k, v) : String × String).1
      = containsKey (othersOf ts k) k from rfl]
  rw [containsKey_othersOf_self ts k]
  rw [show keysUnique (List.filter (fun p => p.1 != k) ts) = keysUnique (othersOf ts k) from rfl]
  rw [show othersOf ts k = ts.filter (fun p => p.1 != k) from rfl]
  rw [keysUnique_filter ts _ h2]
  rfl

theorem tsUpdate_of_wf (ts : TS) (k v : String) (hw : wfTS ts = true)
    (hv : isValidPair k v = true) : tsUpdate ts k v = (k, v) :: othersOf ts k := by
  rw [tsUpdate_shape ts k v hv, mkTraceState_of_wf _ (wf_update_list ts k v hw hv)]

theorem mkTraceStateGo_containsKey : ∀ (l acc : TS) (k : String),
    containsKey acc k = true → containsKey (mkTraceStateGo acc l) k = true := by
  intro l
  induction l with
  | nil => intro acc k h; simpa [mkTraceStateGo] using h
  | cons p rest ih =>
    intro acc k h
    unfold mkTraceStateGo
    cases hcond : (isValidPair p.1 p.2 && !containsKey acc p.1)
    · simpa using ih acc k h
    · show containsKey (mkTraceStateGo (acc ++ [p]) rest) k = true
      exact ih (acc ++ [p]) k (by rw [containsKey_append, h]; rfl)

theorem mkTraceState_cons_containsKey (k v : String) (rest : TS)
    (hv : isValidPair k v = true) :
    containsKey (mkTraceState ((k, v) :: rest)) k = true := by
  unfold mkTraceState mkTraceStateGo
  rw [show (((k, v) : String × String).1) = k from rfl, hv]
  rw [show containsKey ([] : TS) k = false from rfl]
  show containsKey (mkTraceStateGo ([] ++ [(k, v)]) rest) k = true
  exact mkTraceStateGo_containsKey rest ([] ++ [(k, v)]) k (by simp [containsKey])

theorem digitChar_hex : ∀ d < 16, isHexLowerChar (Nat.digitChar d) = true := by
  decide

theorem hexAux_hex : ∀ (fuel n : Nat), ∀ c ∈ hexAux fuel n, isHexLowerChar c = true := by
  intro fuel
  induction fuel with
  | zero => intro n c hc; simp [hexAux] at hc
  | succ fuel ih =>
    intro n c hc
    unfold hexAux at hc
    by_cases hn : n = 0
    · simp [hn] at hc
    · rw [if_neg (by simpa using hn)] at hc
      rcases List.mem_append.1 hc with h | h
      · exact ih (n / 16) c h
      · have : c = Nat.digitChar (n % 16) := by simpa using h
        rw [this]
        exact digitChar_hex (n % 16) (Nat.mod_lt n (by omega))

theorem hexAux_length_le : ∀ (fuel n k : Nat), n < 16 ^ k → (hexAux fuel n).length ≤ k := by
  intro fuel
  induction fuel with
  | zero => intro n k _; simp [hexAux]
  | succ fuel ih =>
    intro n k h
    unfold hexAux
    by_cases hn : n = 0
    · simp [hn]
    · rw [if_neg (by simpa using hn)]
      cases k with
      | zero => simp at h; omega
      | succ k' =>
        have hdiv : n / 16 < 16 ^ k' := by
          rw [pow_succ] at h
          exact (Nat.div_lt_iff_lt_mul (by norm_num)).2 h
        have := ih (n / 16) k' hdiv
        simp only [List.length_append, List.length_cons, List.length_nil]
        omega

theorem pyHexList_length (w n : Nat) (hw : 0 < w) (h : n < 16 ^ w) :
    (pyHexList w n).length = w := by
  simp only [pyHexList]
  have hle := hexAux_length_le (n + 1) n w h
  by_cases he : (hexAux (n + 1) n).isEmpty
  · rw [if_pos he]
    simp only [List.length_append, List.length_replicate, List.length_cons, List.length_nil]
    omega
  · rw [if_neg he]
    simp only [List.length_append, List.length_replicate]
    omega

theorem pyHexList_hex (w n : Nat) : ∀ c ∈ pyHexList w n, isHexLowerChar c = true := by
  intro c hc
  simp only [pyHexList] at hc
  rcases List.mem_append.1 hc with h | h
  · rw [List.eq_of_mem_replicate h]
    decide
  · by_cases he : (hexAux (n + 1) n).isEmpty
    · rw [if_pos he] at h
      have : c = '0' := by simpa using h
      rw [this]; decide
    · rw [if_neg he] at h
      exact hexAux_hex (n + 1) n c h

theorem hex_isValueChar (c : Char) (h : isHexLowerChar c = true) : isValueChar c = true := by
  simp only [isHexLowerChar, Bool.or_eq_true, Bool.and_eq_true, decide_eq_true_eq] at h
  simp only [isValueChar, Bool.and_eq_true, decide_eq_true_eq]
  omega

theorem hex_ne_space (c : Char) (h : isHexLowerChar c = true) : c.toNat ≠ 32 := by
  simp only [isHexLowerChar, Bool.or_eq_true, Bool.and_eq_true, decide_eq_true_eq] at h
  omega

theorem isValidValueChars_of (cs : List Char) (h1 : cs ≠ []) (h2 : cs.length ≤ 256)
    (h3 : ∀ c ∈ cs, isValueChar c = true) (h4 : ∀ c ∈ cs, c.toNat ≠ 32) :
    isValidValueChars cs = true := by
  unfold isValidValueChars
  have hlen : 1 ≤ cs.length := by
    cases cs
    · exact absurd rfl h1
    · simp
  have hall : cs.all isValueChar = true := List.all_eq_true.2 h3
  rw [List.getLast?_eq_getLast cs h1]
  have hmem := List.getLast_mem h1
  have hns := h4 _ hmem
  simp [hlen, h2, hall, hns]

theorem sw_value_data (i f : Nat) :
    (pyFormatHex 16 i ++ "-" ++ pyFormatHex 2 f).toList
      = pyHexList 16 i ++ '-' :: pyHexList 2 f := by
  show ((pyFormatHex 16 i ++ "-") ++ pyFormatHex 2 f).data = _
  rw [String.data_append, String.data_append]
  show (pyHexList 16 i ++ ['-']) ++ pyHexList 2 f = _
  rw [List.append_assoc]
  rfl

theorem sw_pair_valid (i f : Nat) (hi : i < 16 ^ 16) (hf : f < 16 ^ 2) :
    isValidPair "sw" (pyFormatHex 16 i ++ "-" ++ pyFormatHex 2 f) = true := by
  unfold isValidPair
  have hkey : isValidKey "sw" = true := by decide
  have hval : isValidValue (pyFormatHex 16 i ++ "-" ++ pyFormatHex 2 f) = true := by
    unfold isValidValue
    rw [show (pyFormatHex 16 i ++ "-" ++ pyFormatHex 2 f).toList
        = (pyFormatHex 16 i ++ "-" ++ pyFormatHex 2 f).toList from rfl, sw_value_data]
    have l1 : (pyHexList 16 i).length = 16 := pyHexList_length 16 i (by norm_num) hi
    have l2 : (pyHexList 2 f).length = 2 := pyHexList_length 2 f (by norm_num) hf
    apply isValidValueChars_of
    · simp
    · simp [List.length_append, l1, l2]
    · intro c hc
      rcases List.mem_append.1 hc with h | h
      · exact hex_isValueChar c (pyHexList_hex 16 i c h)
      · rcases List.mem_cons.1 h with h | h
        · rw [h]; decide
        · exact hex_isValueChar c (pyHexList_hex 2 f c h)
    · intro c hc
      rcases List.mem_append.1 hc with h | h
      · exact hex_ne_space c (pyHexList_hex 16 i c h)
      · rcases List.mem_cons.1 h with h | h
        · rw [h]; decide
        · exact hex_ne_space c (pyHexList_hex 2 f c h)
  rw [hkey, hval]
  rfl

theorem sw_span_decision_valid (i f : Nat) (hi : i < 16 ^ 16) (hf : f < 16 ^ 2) :
    isValidPair "sw" (sw_from_span_and_decision i (trace_flags_from_int f)) = true :=
  sw_pair_valid i f hi hf

theorem create_new_trace_state_eq (d : LiboboeDecision) (psc : SpanContext)
    (hi : psc.spanId < 16 ^ 16) (hf : d.do_sample < 16 ^ 2) :
    create_new_trace_state d psc
      = [("sw", sw_from_span_and_decision psc.spanId (trace_flags_from_int d.do_sample))] := by
  unfold create_new_trace_state
  apply mkTraceState_of_wf
  unfold wfTS
  rw [List.all_cons]
  rw [show (("sw", sw_from_span_and_decision psc.spanId (trace_flags_from_int d.do_sample))
      : String × String).1 = "sw" from rfl]
  rw [show (("sw", sw_from_span_and_decision psc.spanId (trace_flags_from_int d.do_sample))
      : String × String).2 = sw_from_span_and_decision psc.spanId (trace_flags_from_int d.do_sample)
      from rfl]
  rw [sw_span_decision_valid psc.spanId d.do_sample hi hf]
  rfl

theorem containsKey_of_tsGet_some (ts : TS) (k s : String) (h : tsGet ts k = some s) :
    containsKey ts k = true := by
  unfold tsGet at h
  cases hf : ts.find? (fun p => p.1 == k) with
  | none => rw [hf] at h; simp at h
  | some p =>
    have hmem := List.mem_of_find?_eq_some hf
    have hpred := List.find?_some hf
    rw [containsKey]
    exact List.any_eq_true.2 ⟨p, hmem, hpred⟩

theorem isEmpty_false_of_containsKey (ts : TS) (k : String)
    (h : containsKey ts k = true) : ts.isEmpty = false := by
  cases ts with
  | nil => simp [containsKey] at h
  | cons p rest => rfl

theorem calculate_trace_state_update (d : LiboboeDecision) (psc : SpanContext)
    (hw : wfTS psc.traceState = true)
    (hsw : pyFalsyOptStr (tsGet psc.traceState "sw") = false)
    (hvalid : psc.is_valid = true)
    (hi : psc.spanId < 16 ^ 16) (hf : d.do_sample < 16 ^ 2) :
    calculate_trace_state d psc
      = ("sw", sw_from_span_and_decision psc.spanId (trace_flags_from_int d.do_sample))
          :: othersOf psc.traceState "sw" := by
  have hget : ∃ s, tsGet psc.traceState "sw" = some s := by
    cases hg : tsGet psc.traceState "sw" with
    | none => rw [hg] at hsw; simp [pyFalsyOptStr] at hsw
    | some s => exact ⟨s, rfl⟩
  obtain ⟨s, hs⟩ := hget
  have hck := containsKey_of_tsGet_some psc.traceState "sw" s hs
  have hne := isEmpty_false_of_containsKey psc.traceState "sw" hck
  simp only [calculate_trace_state]
  rw [hvalid]
  rw [show (!true) = false from rfl]
  rw [if_neg (by simp)]
  rw [hne, hsw]
  rw [show (false || false) = false from rfl]
  rw [if_neg (by simp)]
  exact tsUpdate_of_wf psc.traceState "sw" _ hw
    (sw_span_decision_valid psc.spanId d.do_sample hi hf)

theorem inject_trace_state_update (sc : SpanContext)
    (hw : wfTS sc.traceState = true)
    (hc : containsKey sc.traceState "sw" = true)
    (hi : sc.spanId < 16 ^ 16) (hf : sc.traceFlags < 16 ^ 2) :
    inject_trace_state sc
      = ("sw", format_span_id sc.spanId ++ "-" ++ format_trace_flags sc.traceFlags)
          :: othersOf sc.traceState "sw" := by
  have hne := isEmpty_false_of_containsKey sc.traceState "sw" hc
  simp only [inject_trace_state]
  rw [hne]
  rw [show (!false) = true from rfl]
  rw [if_pos rfl, if_pos hc]
  rw [odMoveToFront_odSet]
  exact mkTraceState_of_wf _
    (wf_update_list sc.traceState "sw" _ hw (sw_pair_valid sc.spanId sc.traceFlags hi hf))

theorem othersOf_idem (ts : TS) (k : String) :
    othersOf (othersOf ts k) k = othersOf ts k := by
  simp [othersOf, List.filter_filter]

theorem containsKey_of_pyFalsy_false (ts : TS) (k : String)
    (h : pyFalsyOptStr (tsGet ts k) = false) : containsKey ts k = true := by
  cases hg : tsGet ts k with
  | none => rw [hg] at h; simp [pyFalsyOptStr] at h
  | some s => exact containsKey_of_tsGet_some ts k s hg

theorem swFirstPreserving_cons (ts : TS) (v : String) :
    swFirstPreserving ts (("sw", v) :: othersOf ts "sw") = true := by
  unfold swFirstPreserving
  rw [othersOf_cons]
  have h1 : ((("sw", v) : String × String).1 != "sw") = false := rfl
  rw [h1]
  show ((!containsKey (("sw", v) :: othersOf ts "sw") "sw" ||
      match (("sw", v) :: othersOf ts "sw").head? with
      | some p => p.1 == "sw"
      | none => false) &&
      (othersOf (othersOf ts "sw") "sw" == othersOf ts "sw")) = true
  rw [othersOf_idem]
  simp

theorem calculate_trace_state_contains_sw (d : LiboboeDecision) (psc : SpanContext)
    (hi : psc.spanId < 16 ^ 16) (hf : d.do_sample < 16 ^ 2) :
    containsKey (calculate_trace_state d psc) "sw" = true := by
  simp only [calculate_trace_state]
  cases hv : psc.is_valid
  · rw [show (!false) = true from rfl, if_pos rfl]
    rw [create_new_trace_state_eq d psc hi hf]
    simp [containsKey]
  · rw [show (!true) = false from rfl, if_neg (by simp)]
    cases hcond : (psc.traceState.isEmpty || pyFalsyOptStr (tsGet psc.traceState "sw"))
    · rw [if_neg (by simp)]
      rw [tsUpdate_shape psc.traceState "sw" _
        (sw_span_decision_valid psc.spanId d.do_sample hi hf)]
      exact mkTraceState_cons_containsKey "sw" _ (othersOf psc.traceState "sw")
        (sw_span_decision_valid psc.spanId d.do_sample hi hf)
    · rw [if_pos rfl]
      rw [create_new_trace_state_eq d psc hi hf]
      simp [containsKey]

/-- Claim C1 counterexample: for the valid remote parent with TraceState
vendor1=foo,vendor2=bar and no sw key, the engine output does not retain
the vendor members (it contains only the new sw member), contradicting the
claim that they are preserved with sw prepended. -/
theorem C1_counterexample :
    othersOf
      (calculate_trace_state ⟨1, 1⟩
        ⟨1, 2, true, 1, [("vendor1", "foo"), ("vendor2", "bar")]⟩) "sw"
      ≠ [("vendor1", "foo"), ("vendor2", "bar")] := by
  decide

/-- Claim C1 (amended): for every sampling call with a valid remote parent
whose TraceState is non-empty but has no sw key (or an empty sw value), the
engine discards the parent vendor members and returns a fresh TraceState
holding exactly the single new sw member built from the parent span id and
the do_sample flag. -/
theorem C1_amended (d : LiboboeDecision) (psc : SpanContext)
    (hvalid : psc.is_valid = true) (hremote : psc.isRemote = true)
    (hne : psc.traceState ≠ [])
    (hsw : pyFalsyOptStr (tsGet psc.traceState "sw") = true)
    (hi : psc.spanId < 16 ^ 16) (hf : d.do_sample < 16 ^ 2) :
    calculate_trace_state d psc
      = [("sw", sw_from_span_and_decision psc.spanId (trace_flags_from_int d.do_sample))] := by
  simp only [calculate_trace_state]
  rw [hvalid]
  rw [show (!true) = false from rfl, if_neg (by simp)]
  rw [hsw, Bool.or_true, if_pos rfl]
  exact create_new_trace_state_eq d psc hi hf

/-- Witness for C1 (amended) at a concrete valid remote parent carrying
vendor1=foo,vendor2=bar. -/
theorem C1_amended_witness :
    calculate_trace_state ⟨1, 1⟩ ⟨1, 2, true, 1, [("vendor1", "foo"), ("vendor2", "bar")]⟩
      = [("sw", sw_from_span_and_decision 2 (trace_flags_from_int 1))] :=
  C1_amended ⟨1, 1⟩ ⟨1, 2, true, 1, [("vendor1", "foo"), ("vendor2", "bar")]⟩
    (by decide) (by decide) (by decide) (by decide) (by decide) (by decide)

/-- Claim C2 counterexample: the engine mutation on a valid remote parent
whose TraceState has no sw key drops the other entries, so the mutated
state does not keep the non-sw entries of the input. -/
theorem C2_counterexample :
    swFirstPreserving [("vendor1", "foo")]
      (calculate_trace_state ⟨1, 1⟩ ⟨1, 3, true, 1, [("vendor1", "foo")]⟩) = false := by
  decide

/-- Claim C2 (amended): for every engine or injector mutation that updates
an existing sw member, the resulting TraceState has the sw entry first and
all other entries keep their relative order; the engine insert of a new sw
member instead rebuilds a fresh single-member TraceState, dropping the
other entries. -/
theorem C2_amended (d : LiboboeDecision) (psc : SpanContext)
    (hw : wfTS psc.traceState = true)
    (hsw : pyFalsyOptStr (tsGet psc.traceState "sw") = false)
    (hvalid : psc.is_valid = true)
    (hi : psc.spanId < 16 ^ 16) (hf : d.do_sample < 16 ^ 2)
    (hfl : psc.traceFlags < 16 ^ 2) :
    swFirstPreserving psc.traceState (calculate_trace_state d psc) = true ∧
    swFirstPreserving psc.traceState (inject_trace_state psc) = true := by
  have hck := containsKey_of_pyFalsy_false psc.traceState "sw" hsw
  constructor
  · rw [calculate_trace_state_update d psc hw hsw hvalid hi hf]
    exact swFirstPreserving_cons psc.traceState _
  · rw [inject_trace_state_update psc hw hck hi hfl]
    exact swFirstPreserving_cons psc.traceState _

/-- Witness for C2 (amended) at a concrete parent whose TraceState already
has an sw entry followed by a vendor entry. -/
theorem C2_amended_witness :
    swFirstPreserving [("sw", "e000baa4e000baa4-01"), ("vendor1", "foo")]
      (calculate_trace_state ⟨1, 1⟩
        ⟨1, 3, true, 1, [("sw", "e000baa4e000baa4-01"), ("vendor1", "foo")]⟩) = true ∧
    swFirstPreserving [("sw", "e000baa4e000baa4-01"), ("vendor1", "foo")]
      (inject_trace_state
        ⟨1, 3, true, 1, [("sw", "e000baa4e000baa4-01"), ("vendor1", "foo")]⟩) = true :=
  C2_amended ⟨1, 1⟩ ⟨1, 3, true, 1, [("sw", "e000baa4e000baa4-01"), ("vendor1", "foo")]⟩
    (by decide) (by decide) (by decide) (by decide) (by decide) (by decide)

/-- Claim C3 (confirmed): the OTel decision is a deterministic function of
the liboboe record: truthy do_sample gives RECORD_AND_SAMPLE regardless of
do_metrics, otherwise truthy do_metrics gives RECORD_ONLY, otherwise
DROP. -/
theorem C3_decision_mapping (d : LiboboeDecision) :
    otel_decision_from_liboboe d
      = if d.do_sample != 0 then Decision.RECORD_AND_SAMPLE
        else if d.do_metrics != 0 then Decision.RECORD_ONLY
        else Decision.DROP := by
  simp only [otel_decision_from_liboboe]

/-- Claim C4 (code_bug): evaluating calculate_attributes at a non-DROP
decision, a valid parent with a trace state, and a caller attribute map
that already has sw.w3c.tracestate xx=yy.  The claim (and the spec) say the
attribute becomes the parse of xx=yy with the sw key update-or-inserted and
re-serialized, namely sw=0000000000000022-01,xx=yy; the code passes the
attribute string itself (iterated per character) where from_header expects
a list of headers, so the parse is empty, and it also discards the return
value of the immutable TraceState.update — the attribute comes out as the
empty string. -/
theorem C4_failing_eval :
    calculate_attributes (some [("sw.w3c.tracestate", "xx=yy")]) ⟨1, 1⟩
        [("sw", "0000000000000022-01")] ⟨1, 0x22, true, 1, [("sw", "aa-01")]⟩
      = some [("sw.w3c.tracestate", ""), ("sw.tracestate_parent_id", "0000000000000022")] := by
  decide

/-- Claim C5 (code_bug): evaluating inject at a span context whose
TraceState is vendor1=foo with no sw key.  The claim (and the spec) say the
sw member is inserted, giving sw=0000000000000022-01,vendor1=foo; the code
calls the immutable TraceState.add and discards its return value, so the
written header is vendor1=foo with no sw member. -/
theorem C5_failing_eval :
    inject ⟨1, 0x22, true, 1, [("vendor1", "foo")]⟩ = "vendor1=foo" := by
  decide

/-- Claim C6 counterexample: with an oracle call that raises, should_sample
does not return the DROP result with the parent trace state that the claim
describes — the exception propagates (the embedded call returns none). -/
theorem C6_counterexample :
    sw_should_sample (fun _ _ => none) ⟨1, 4, true, 1, [("vendor1", "foo")]⟩ none
      ≠ some ⟨Decision.DROP, none, some [("vendor1", "foo")]⟩ := by
  decide

/-- Claim C6 (amended): when the oracle call fails (raises, or returns a
malformed record that raises at tuple unpacking), the failure propagates
out of should_sample — there is no fail-safe DROP path, no exception
handler around the oracle call. -/
theorem C6_amended (oracle : Oracle) (psc : SpanContext) (attrs : Option AttrDict)
    (h : oracle (traceparent_from_context psc) (sw_from_context psc) = none) :
    sw_should_sample oracle psc attrs = none := by
  simp only [sw_should_sample, calculate_liboboe_decision]
  rw [h]
  rfl

/-- Witness for C6 (amended) at a concrete failing oracle and parent. -/
theorem C6_amended_witness :
    sw_should_sample (fun _ _ => none) ⟨1, 5, true, 1, [("sw", "ab-01")]⟩ none = none :=
  C6_amended (fun _ _ => none) ⟨1, 5, true, 1, [("sw", "ab-01")]⟩ none rfl

/-- Claim C7 (confirmed): the ParentBased dispatcher runs the oracle-backed
engine for an invalid parent and for every valid remote parent, sampled or
not; for a valid local parent the result does not depend on the oracle at
all, carries the parent TraceState unchanged, and the inherited decision is
the one recorded in the parent context sampled flag: RECORD_AND_SAMPLE when
sampled, DROP otherwise. -/
theorem C7_dispatch (oracle oracle2 : Oracle) (psc : SpanContext)
    (attrs : Option AttrDict) :
    (psc.is_valid = false →
      parent_based_sw_should_sample oracle psc attrs = sw_should_sample oracle psc attrs) ∧
    (psc.is_valid = true → psc.isRemote = true →
      parent_based_sw_should_sample oracle psc attrs = sw_should_sample oracle psc attrs) ∧
    (psc.is_valid = true → psc.isRemote = false →
      parent_based_sw_should_sample oracle psc attrs
          = parent_based_sw_should_sample oracle2 psc attrs ∧
      ∃ r : SamplingResult,
        parent_based_sw_should_sample oracle psc attrs = some r ∧
        r.trace_state = some psc.traceState ∧
        r.decision = (if sampledFlag psc then Decision.RECORD_AND_SAMPLE
                      else Decision.DROP)) := by
  refine ⟨?_, ?_, ?_⟩
  · intro hv
    simp [parent_based_sw_should_sample, parent_based_should_sample, hv]
  · intro hv hr
    cases hs : sampledFlag psc
    · simp [parent_based_sw_should_sample, parent_based_should_sample, hv, hr, hs]
    · simp [parent_based_sw_should_sample, parent_based_should_sample, hv, hr, hs]
  · intro hv hr
    cases hs : sampledFlag psc
    · constructor
      · simp [parent_based_sw_should_sample, parent_based_should_sample, hv, hr, hs]
      · refine ⟨static_should_sample Decision.DROP psc attrs, ?_, ?_, ?_⟩
        · simp [parent_based_sw_should_sample, parent_based_should_sample, hv, hr, hs,
            ALWAYS_OFF]
        · simp [static_should_sample, get_parent_trace_state, hv]
        · simp [static_should_sample, hs]
    · constructor
      · simp [parent_based_sw_should_sample, parent_based_should_sample, hv, hr, hs]
      · refine ⟨static_should_sample Decision.RECORD_AND_SAMPLE psc attrs, ?_, ?_, ?_⟩
        · simp [parent_based_sw_should_sample, parent_based_should_sample, hv, hr, hs,
            ALWAYS_ON]
        · simp [static_should_sample, get_parent_trace_state, hv]
        · simp [static_should_sample, hs]

/-- Witness for C7 at concrete inputs: a valid local parent (result equal
under two different oracles), a valid remote parent (engine runs), and an
invalid parent (engine runs as root). -/
theorem C7_dispatch_witness :
    (parent_based_sw_should_sample (fun _ _ => some ⟨1, 1⟩)
        ⟨1, 6, false, 1, [("vendor1", "foo")]⟩ none
      = parent_based_sw_should_sample (fun _ _ => none)
        ⟨1, 6, false, 1, [("vendor1", "foo")]⟩ none) ∧
    (parent_based_sw_should_sample (fun _ _ => some ⟨1, 1⟩) ⟨1, 7, true, 1, []⟩ none
      = sw_should_sample (fun _ _ => some ⟨1, 1⟩) ⟨1, 7, true, 1, []⟩ none) ∧
    (parent_based_sw_should_sample (fun _ _ => some ⟨1, 1⟩) ⟨0, 0, false, 0, []⟩ none
      = sw_should_sample (fun _ _ => some ⟨1, 1⟩) ⟨0, 0, false, 0, []⟩ none) := by
  refine ⟨?_, ?_, ?_⟩
  · exact ((C7_dispatch (fun _ _ => some ⟨1, 1⟩) (fun _ _ => none)
      ⟨1, 6, false, 1, [("vendor1", "foo")]⟩ none).2.2 (by decide) (by decide)).1
  · exact (C7_dispatch (fun _ _ => some ⟨1, 1⟩) (fun _ _ => some ⟨1, 1⟩)
      ⟨1, 7, true, 1, []⟩ none).2.1 (by decide) (by decide)
  · exact (C7_dispatch (fun _ _ => some ⟨1, 1⟩) (fun _ _ => some ⟨1, 1⟩)
      ⟨0, 0, false, 0, []⟩ none).1 (by decide)

/-- Claim C8 (confirmed): for every sampling call with an invalid parent,
the produced trace state is exactly the single sw member, its value 16
lowercase hex characters, a dash, and 2 lowercase hex characters formatting
the freshly computed do_sample flag. -/
theorem C8_root_tracestate (d : LiboboeDecision) (psc : SpanContext)
    (hinv : psc.is_valid = false) (hi : psc.spanId < 16 ^ 16)
    (hf : d.do_sample < 16 ^ 2) : rootSwShape d psc := by
  refine ⟨pyFormatHex 16 psc.spanId, pyFormatHex 2 d.do_sample, ?_, ?_, ?_, ?_, ?_, rfl⟩
  · simp only [calculate_trace_state]
    rw [hinv]
    rw [show (!false) = true from rfl, if_pos rfl]
    exact create_new_trace_state_eq d psc hi hf
  · show (pyHexList 16 psc.spanId).length = 16
    exact pyHexList_length 16 psc.spanId (by norm_num) hi
  · intro c hc
    exact pyHexList_hex 16 psc.spanId c hc
  · show (pyHexList 2 d.do_sample).length = 2
    exact pyHexList_length 2 d.do_sample (by norm_num) hf
  · intro c hc
    exact pyHexList_hex 2 d.do_sample c hc

/-- Witness for C8 at the all-zero invalid parent context. -/
theorem C8_root_tracestate_witness : rootSwShape ⟨1, 1⟩ ⟨0, 0, false, 0, []⟩ :=
  C8_root_tracestate ⟨1, 1⟩ ⟨0, 0, false, 0, []⟩ (by decide) (by decide) (by decide)

/-- Claim C9 (confirmed): the propagator extract operation is the identity
on the given context for every carrier and getter; it parses nothing
itself. -/
theorem C9_extract_identity {γ : Type} (carrier : AttrDict) (context : Option γ)
    (getter : AttrDict → String → List String) :
    extract carrier context getter = context := rfl

/-- Claim C10 (confirmed): whenever the oracle call returns a record, the
engine result carries a trace state containing an sw key even on DROP, and
a DROP decision forces the attributes to none. -/
theorem C10_engine_result (oracle : Oracle) (psc : SpanContext)
    (attrs : Option AttrDict) (rec : OracleRecord)
    (h : oracle (traceparent_from_context psc) (sw_from_context psc) = some rec)
    (hi : psc.spanId < 16 ^ 16) (hf : rec.do_sample < 16 ^ 2) :
    engineResultShape oracle psc attrs := by
  have hdec : calculate_liboboe_decision oracle psc
      = some ⟨rec.do_metrics, rec.do_sample⟩ := by
    simp only [calculate_liboboe_decision]
    rw [h]
    rfl
  have hcts := calculate_trace_state_contains_sw ⟨rec.do_metrics, rec.do_sample⟩ psc hi hf
  refine ⟨⟨otel_decision_from_liboboe ⟨rec.do_metrics, rec.do_sample⟩,
      if otel_decision_from_liboboe ⟨rec.do_metrics, rec.do_sample⟩ != Decision.DROP
        then calculate_attributes attrs ⟨rec.do_metrics, rec.do_sample⟩
               (calculate_trace_state ⟨rec.do_metrics, rec.do_sample⟩ psc) psc
        else none,
      some (calculate_trace_state ⟨rec.do_metrics, rec.do_sample⟩ psc)⟩, ?_, ?_, ?_⟩
  · simp only [sw_should_sample, hdec]
  · exact ⟨calculate_trace_state ⟨rec.do_metrics, rec.do_sample⟩ psc, rfl, hcts⟩
  · intro hdrop
    simp only at hdrop ⊢
    rw [hdrop]
    rfl

/-- Witness for C10 at a concrete oracle returning a metrics-only record
(decision DROP is impossible here only when do_sample is set; with
do_sample 0 and do_metrics 1 the decision is RECORD_ONLY and the trace
state still carries sw). -/
theorem C10_engine_result_witness :
    engineResultShape (fun _ _ => some ⟨1, 0⟩) ⟨1, 8, true, 1, [("vendor1", "foo")]⟩ none :=
  C10_engine_result (fun _ _ => some ⟨1, 0⟩) ⟨1, 8, true, 1, [("vendor1", "foo")]⟩ none
    ⟨1, 0⟩ rfl (by decide) (by decide)
